import Mathlib

/-
Verification of the ManV stdlib build orchestrator (build.py).

The script is embedded shallowly: the filesystem is a list of file paths,
the host is an oracle (executable resolution, process outcomes, unlink
success), and each run returns its result together with the list of
observable effects (compiler and archiver invocations, file removals,
collection starts, error diagnostics).  Purely decorative console output
(colours, success ticks, verbose echoes, the size summary) is not modelled.
-/

namespace ManVBuild

/-- Join a directory and a relative name with a slash, as Python pathlib
renders the slash operator on POSIX paths. -/
def pathJoin (dir name : String) : String :=
  dir ++ "/" ++ name

/-- Character-level transform underlying Python str.replace of slash by
underscore: every slash becomes an underscore. -/
def flattenSlashes : List Char → List Char
  | [] => []
  | c :: cs => (if c = '/' then '_' else c) :: flattenSlashes cs

/-- Character-level transform underlying Python str.replace of ".asm" by
".o": left-to-right, non-overlapping replacement of every occurrence. -/
def replaceAsm : List Char → List Char
  | '.' :: 'a' :: 's' :: 'm' :: cs => '.' :: 'o' :: replaceAsm cs
  | c :: cs => c :: replaceAsm cs
  | [] => []

/-- Object file name for a source path, as computed at build.py line 222:
slashes flattened to underscores, then ".asm" rewritten to ".o". -/
def objName (source : String) : String :=
  String.mk (replaceAsm (flattenSlashes source.data))

/-- Strip a leading character list; some remainder exactly when the second
list starts with the first. -/
def dropPre : List Char → List Char → Option (List Char)
  | [], l => some l
  | _ :: _, [] => none
  | a :: as, b :: bs => if a = b then dropPre as bs else none

/-- Does the list l end with the list e. -/
def hasSfx (e l : List Char) : Bool :=
  l.drop (l.length - e.length) == e

/-- Last character of a list, if any. -/
def lastC (l : List Char) : Option Char :=
  l.reverse.head?

/-- The glob pattern star-dot-ext over a directory, applied to a path:
the path names a direct child of the directory whose name ends with the
extension. -/
def globMatch (dir : String) (ext : List Char) (p : String) : Bool :=
  match dropPre (dir ++ "/").data p.data with
  | some rest => !rest.contains '/' && hasSfx ext rest
  | none => false

/-- Outcome of launching one external process, as seen at the boundary of
subprocess.run inside run_command: the process completes with an exit code
and standard-error text, or the executable is absent (FileNotFoundError),
or launching raises some other exception carrying a message. -/
inductive ProcOutcome where
  | completed (code : Nat) (stderrText : String)
  | notFound
  | raised (msg : String)
deriving DecidableEq, Repr

/-- The host a run interacts with: executable resolution via which, the
behaviour of each launched command, and whether unlinking a path succeeds
(a false answer models the OSError that Path.unlink would raise). -/
structure Env where
  whichOk : String → Bool
  proc : List String → ProcOutcome
  unlinkOk : String → Bool

/-- run_command from build.py (lines 76-103): run a command and return
success status and stderr; FileNotFoundError and any other exception are
caught and turned into a failure carrying a diagnostic message. -/
def run_command (outcome : ProcOutcome) (command : List String) : Bool × String :=
  match outcome with
  | ProcOutcome.completed code err => (code == 0, err)
  | ProcOutcome.notFound => (false, "Command not found: " ++ command.headD "")
  | ProcOutcome.raised msg => (false, msg)

/-- The required external tools listed in check_dependencies. -/
def dependencies : List String := ["nasm", "ar"]

/-- Observable effects of a run. -/
inductive Event where
  | compile (source obj : String)
  | archive (dest : String) (objs : List String)
  | remove (path : String)
  | buildStart (lib : String)
  | logError (msg : String)
deriving DecidableEq, Repr

/-- The loop of check_dependencies (lines 113-127): query which for each
tool in order, log an error for each miss, and conjoin the results. -/
def checkDepsLoop (env : Env) : List String → Bool × List Event
  | [] => (true, [])
  | d :: rest =>
      let r := checkDepsLoop env rest
      if env.whichOk d then r
      else (false, Event.logError ("Required tool not found: " ++ d) :: r.2)

/-- check_dependencies from build.py (lines 106-128). -/
def check_dependencies (env : Env) : Bool × List Event :=
  checkDepsLoop env dependencies

/-- compile_asm from build.py (lines 131-160): invoke nasm on one source;
on failure log which source failed.  Returns success plus the invocation
and diagnostic events. -/
def compile_asm (env : Env) (source output : String) : Bool × List Event :=
  let command := ["nasm", "-f", "elf64", source, "-o", output]
  let r := run_command (env.proc command) command
  if r.1 then
    (true, [Event.compile source output])
  else
    (false, [Event.compile source output,
             Event.logError ("Failed to compile " ++ source)])

/-- create_archive from build.py (lines 163-187): invoke ar rcs with the
archive path followed by the object list; on failure log which archive
failed. -/
def create_archive (env : Env) (objects : List String) (output : String) :
    Bool × List Event :=
  let command := ["ar", "rcs", output] ++ objects
  let r := run_command (env.proc command) command
  if r.1 then
    (true, [Event.archive output objects])
  else
    (false, [Event.archive output objects,
             Event.logError ("Failed to create archive " ++ output)])

/-- Write a file: insert its path into the file set. -/
def fsInsert (fs : List String) (p : String) : List String :=
  if p ∈ fs then fs else p :: fs

/-- Unlink a file: remove its path from the file set. -/
def fsErase : List String → String → List String
  | [], _ => []
  | x :: rest, p => if x = p then rest else x :: fsErase rest p

/-- Object path for a source, as computed in build_library (lines 222-223):
the flattened object name placed directly in the build directory. -/
def objPathOf (build_dir source : String) : String :=
  pathJoin build_dir (objName source)

/-- The per-source loop of build_library (lines 214-232): check that the
source exists, compile it, record the produced object; abort the collection
at the first missing source or failed compile.  A successful compile writes
the object file.  Returns the collected object paths on success, the file
set after the writes so far, and the emitted events. -/
def buildSources (env : Env) (stdlib_dir build_dir : String) :
    List String → List String → Option (List String) × List String × List Event
  | [], fs => (some [], fs, [])
  | source :: rest, fs =>
      let source_path := pathJoin stdlib_dir source
      if source_path ∈ fs then
        let obj_path := objPathOf build_dir source
        let c := compile_asm env source_path obj_path
        if c.1 then
          let r := buildSources env stdlib_dir build_dir rest (fsInsert fs obj_path)
          (r.1.map (fun objs => obj_path :: objs), r.2.1, c.2 ++ r.2.2)
        else
          (none, fs, c.2)
      else
        (none, fs, [Event.logError ("Source file not found: " ++ source_path)])

/-- build_library from build.py (lines 190-248): log the collection start,
run the per-source loop, then invoke the archiver once on the produced
object list.  The archive file appears when ar succeeds. -/
def build_library (env : Env) (name : String) (sources : List String)
    (stdlib_dir build_dir : String) (fs : List String) :
    Bool × List String × List Event :=
  let r := buildSources env stdlib_dir build_dir sources fs
  match r.1 with
  | none => (false, r.2.1, Event.buildStart name :: r.2.2)
  | some objects =>
      let archive_path := pathJoin stdlib_dir (name ++ ".a")
      let a := create_archive env objects archive_path
      (a.1, if a.1 then fsInsert r.2.1 archive_path else r.2.1,
       Event.buildStart name :: (r.2.2 ++ a.2))

/-- The paths matched by the object glob of clean_build: direct children of
the build directory ending in dot-o. -/
def isObjIn (build_dir p : String) : Bool := globMatch build_dir ['.', 'o'] p

/-- The paths matched by the archive glob of clean_build: direct children of
the stdlib directory ending in dot-a. -/
def isArchiveIn (stdlib_dir p : String) : Bool := globMatch stdlib_dir ['.', 'a'] p

/-- Unlink each target in turn.  build.py wraps no handler around unlink, so
the first failing removal aborts the loop with the exception propagating;
the success component records whether all removals succeeded. -/
def removeFiles (env : Env) : List String → List String → Bool × List String × List Event
  | [], fs => (true, fs, [])
  | p :: rest, fs =>
      if env.unlinkOk p then
        let r := removeFiles env rest (fsErase fs p)
        (r.1, r.2.1, Event.remove p :: r.2.2)
      else
        (false, fs, [])

/-- clean_build from build.py (lines 251-269): remove every object file in
the build directory, then every archive in the stdlib directory. -/
def clean_build (env : Env) (stdlib_dir build_dir : String) (fs : List String) :
    Bool × List String × List Event :=
  let objs := fs.filter (fun p => isObjIn build_dir p)
  let r1 := removeFiles env objs fs
  if r1.1 then
    let archives := r1.2.1.filter (fun p => isArchiveIn stdlib_dir p)
    let r2 := removeFiles env archives r1.2.1
    (r2.1, r2.2.1, r1.2.2 ++ r2.2.2)
  else
    (false, r1.2.1, r1.2.2)

/-- CORE_SOURCES from build.py (lines 33-40). -/
def CORE_SOURCES : List String :=
  ["core/core.asm",
   "core/str.asm",
   "core/int.asm",
   "core/float.asm",
   "core/array.asm",
   "core/bytes.asm"]

/-- STD_SOURCES from build.py (lines 43-49). -/
def STD_SOURCES : List String :=
  ["io/io.asm",
   "math/math.asm",
   "memory/gc.asm",
   "memory/arena.asm",
   "memory/mem.asm"]

/-- The collections main builds, in declared order (lines 317-323). -/
def collections : List (String × List String) :=
  [("libcore", CORE_SOURCES), ("libstd", STD_SOURCES)]

/-- The option strings registered on the argument parser in main
(lines 277-292). -/
def cliOptions : List String := ["--clean", "--verbose", "-v", "--stdlib-dir"]

/-- Result of one whole run: the process exit status, whether the run was
terminated by an uncaught exception (Python then also exits 1, but through a
traceback rather than the return path), the final file set, and the events. -/
structure RunResult where
  exit : Nat
  crashed : Bool
  fs : List String
  trace : List Event
deriving DecidableEq, Repr

/-- main from build.py (lines 272-339): dependency check, optional clean,
then libcore and libstd in declared order, stopping at the first failure.
Directory creation and the informational summary are not modelled. -/
def main (env : Env) (cleanFlag : Bool) (stdlib_dir : String) (fs : List String) :
    RunResult :=
  let build_dir := pathJoin stdlib_dir "build"
  let dep := check_dependencies env
  if !dep.1 then ⟨1, false, fs, dep.2⟩
  else
    let c := if cleanFlag then clean_build env stdlib_dir build_dir fs
             else (true, fs, [])
    if !c.1 then ⟨1, true, c.2.1, dep.2 ++ c.2.2⟩
    else
      let b1 := build_library env "libcore" CORE_SOURCES stdlib_dir build_dir c.2.1
      if !b1.1 then ⟨1, false, b1.2.1, dep.2 ++ c.2.2 ++ b1.2.2⟩
      else
        let b2 := build_library env "libstd" STD_SOURCES stdlib_dir build_dir b1.2.1
        if !b2.1 then ⟨1, false, b2.2.1, dep.2 ++ c.2.2 ++ b1.2.2 ++ b2.2.2⟩
        else ⟨0, false, b2.2.1, dep.2 ++ c.2.2 ++ b1.2.2 ++ b2.2.2⟩

/-! Helper lemmas about paths and extensions. -/

theorem str_eq_of_data {a b : String} (h : a.data = b.data) : a = b := by
  cases a; cases b; exact congrArg String.mk h

theorem data_pathJoin (d n : String) :
    (pathJoin d n).data = (d.data ++ ['/']) ++ n.data := by
  simp [pathJoin, String.data_append]

theorem pathJoin_right_inj {d a b : String} (h : pathJoin d a = pathJoin d b) :
    a = b := by
  have hd : (pathJoin d a).data = (pathJoin d b).data := by rw [h]
  rw [data_pathJoin, data_pathJoin] at hd
  exact str_eq_of_data (List.append_cancel_left hd)

theorem lastC_append {l e : List Char} (h : e ≠ []) :
    lastC (l ++ e) = lastC e := by
  rcases he : e.reverse with _ | ⟨c, cs⟩
  · exact absurd (List.reverse_eq_nil_iff.mp he) h
  · simp [lastC, List.reverse_append, he]

theorem lastC_pathJoin {d n : String} (h : n.data ≠ []) :
    lastC (pathJoin d n).data = lastC n.data := by
  rw [data_pathJoin]
  exact lastC_append h

theorem dropPre_some : ∀ {a b r : List Char}, dropPre a b = some r → b = a ++ r := by
  intro a
  induction a with
  | nil => intro b r h; simpa [dropPre] using Option.some.inj h
  | cons x xs ih =>
      intro b r h
      cases b with
      | nil => simp [dropPre] at h
      | cons y ys =>
          by_cases hxy : x = y
          · subst hxy
            simp only [dropPre, if_pos rfl] at h
            simpa using ih h
          · simp [dropPre, hxy] at h

theorem hasSfx_exists {e l : List Char} (h : hasSfx e l = true) :
    ∃ m, l = m ++ e := by
  refine ⟨l.take (l.length - e.length), ?_⟩
  have hd : l.drop (l.length - e.length) = e := by simpa [hasSfx] using h
  conv_lhs => rw [← List.take_append_drop (l.length - e.length) l]
  rw [hd]

theorem globMatch_lastC {d : String} {e : List Char} {p : String}
    (hm : globMatch d e p = true) (he : e ≠ []) :
    lastC p.data = lastC e := by
  unfold globMatch at hm
  rcases hr : dropPre (d ++ "/").data p.data with _ | rest
  · rw [hr] at hm; simp at hm
  · rw [hr] at hm
    simp only [Bool.and_eq_true] at hm
    obtain ⟨m, hrest⟩ := hasSfx_exists hm.2
    have hp : p.data = ((d ++ "/").data ++ m) ++ e := by
      rw [dropPre_some hr, hrest, List.append_assoc]
    rw [hp]
    exact lastC_append he

/-! Helper lemmas about the file-set operations. -/

theorem mem_fsInsert {fs : List String} {p x : String} :
    x ∈ fsInsert fs p ↔ x = p ∨ x ∈ fs := by
  unfold fsInsert
  by_cases h : p ∈ fs
  · simp only [if_pos h]
    constructor
    · exact fun hx => Or.inr hx
    · rintro (rfl | hx)
      · exact h
      · exact hx
  · simp [if_neg h]

theorem fsInsert_mono {fs : List String} {p x : String} (h : x ∈ fs) :
    x ∈ fsInsert fs p :=
  mem_fsInsert.mpr (Or.inr h)

theorem self_mem_fsInsert {fs : List String} {p : String} :
    p ∈ fsInsert fs p :=
  mem_fsInsert.mpr (Or.inl rfl)

/-- During one collection build, source files keep their presence status:
the current file set agrees with the initial one on every source path. -/
def SrcInv (stdlib_dir : String) (S fs0 fsCur : List String) : Prop :=
  ∀ s ∈ S, (pathJoin stdlib_dir s ∈ fsCur ↔ pathJoin stdlib_dir s ∈ fs0)

/-- Source paths and object paths of a collection never coincide: a layout
condition the declared collections satisfy for every root directory. -/
def SrcObjSep (stdlib_dir build_dir : String) (S : List String) : Prop :=
  ∀ s ∈ S, ∀ t ∈ S, pathJoin stdlib_dir s ≠ objPathOf build_dir t

theorem srcInv_refl (sd : String) (S fs0 : List String) : SrcInv sd S fs0 fs0 :=
  fun _ _ => Iff.rfl

theorem srcInv_insert {sd : String} {S fs0 fsCur : List String} {q : String}
    (hinv : SrcInv sd S fs0 fsCur) (hq : ∀ s ∈ S, pathJoin sd s ≠ q) :
    SrcInv sd S fs0 (fsInsert fsCur q) := by
  intro s hs
  rw [← hinv s hs]
  rw [mem_fsInsert]
  simp [hq s hs]

/-! Shape lemmas for the tool wrappers. -/

theorem compile_asm_ok {env : Env} {s o : String}
    (h : (compile_asm env s o).1 = true) :
    compile_asm env s o = (true, [Event.compile s o]) := by
  simp only [compile_asm] at h ⊢
  split at h <;> simp_all

theorem compile_asm_fail {env : Env} {s o : String}
    (h : (compile_asm env s o).1 = false) :
    compile_asm env s o =
      (false, [Event.compile s o, Event.logError ("Failed to compile " ++ s)]) := by
  simp only [compile_asm] at h ⊢
  split at h <;> simp_all

theorem compile_asm_events {env : Env} {s o : String} :
    ∀ e ∈ (compile_asm env s o).2,
      e = Event.compile s o ∨ e = Event.logError ("Failed to compile " ++ s) := by
  intro e he
  simp only [compile_asm] at he
  split at he <;> simp_all

theorem create_archive_trace {env : Env} {objs : List String} {out : String} :
    ∃ t, (create_archive env objs out).2 = Event.archive out objs :: t ∧
      ∀ e ∈ t, ∃ m, e = Event.logError m := by
  simp only [create_archive]
  split
  · exact ⟨[], rfl, by simp⟩
  · exact ⟨[Event.logError ("Failed to create archive " ++ out)], rfl, by simp⟩

/-! Unfolding lemmas for the per-source loop. -/

theorem buildSources_cons_absent {env : Env} {sd bd s : String}
    {rest fs : List String} (h : pathJoin sd s ∉ fs) :
    buildSources env sd bd (s :: rest) fs =
      (none, fs, [Event.logError ("Source file not found: " ++ pathJoin sd s)]) := by
  simp [buildSources, h]

theorem buildSources_cons_fail {env : Env} {sd bd s : String}
    {rest fs : List String} (h : pathJoin sd s ∈ fs)
    (hc : (compile_asm env (pathJoin sd s) (objPathOf bd s)).1 = false) :
    buildSources env sd bd (s :: rest) fs =
      (none, fs, [Event.compile (pathJoin sd s) (objPathOf bd s),
                  Event.logError ("Failed to compile " ++ pathJoin sd s)]) := by
  simp [buildSources, h, hc, compile_asm_fail hc]

theorem buildSources_cons_ok {env : Env} {sd bd s : String}
    {rest fs : List String} (h : pathJoin sd s ∈ fs)
    (hc : (compile_asm env (pathJoin sd s) (objPathOf bd s)).1 = true) :
    buildSources env sd bd (s :: rest) fs =
      ((buildSources env sd bd rest (fsInsert fs (objPathOf bd s))).1.map
         (fun objs => objPathOf bd s :: objs),
       (buildSources env sd bd rest (fsInsert fs (objPathOf bd s))).2.1,
       Event.compile (pathJoin sd s) (objPathOf bd s) ::
         (buildSources env sd bd rest (fsInsert fs (objPathOf bd s))).2.2) := by
  simp [buildSources, h, hc, compile_asm_ok hc]

theorem build_library_none {env : Env} {name sd bd : String}
    {sources fs : List String}
    (h : (buildSources env sd bd sources fs).1 = none) :
    build_library env name sources sd bd fs =
      (false, (buildSources env sd bd sources fs).2.1,
       Event.buildStart name :: (buildSources env sd bd sources fs).2.2) := by
  simp [build_library, h]

theorem build_library_some {env : Env} {name sd bd : String}
    {sources fs objs : List String}
    (h : (buildSources env sd bd sources fs).1 = some objs) :
    build_library env name sources sd bd fs =
      ((create_archive env objs (pathJoin sd (name ++ ".a"))).1,
       if (create_archive env objs (pathJoin sd (name ++ ".a"))).1 then
         fsInsert (buildSources env sd bd sources fs).2.1 (pathJoin sd (name ++ ".a"))
       else (buildSources env sd bd sources fs).2.1,
       Event.buildStart name ::
         ((buildSources env sd bd sources fs).2.2 ++
           (create_archive env objs (pathJoin sd (name ++ ".a"))).2)) := by
  simp [build_library, h]

/-! Structural lemmas about the per-source loop. -/

theorem buildSources_events {env : Env} {sd bd : String} :
    ∀ (srcs fs : List String), ∀ e ∈ (buildSources env sd bd srcs fs).2.2,
      (∃ s o, e = Event.compile s o) ∨ (∃ m, e = Event.logError m) := by
  intro srcs
  induction srcs with
  | nil => intro fs e he; simp [buildSources] at he
  | cons s rest ih =>
      intro fs e he
      by_cases hp : pathJoin sd s ∈ fs
      · rcases hc : (compile_asm env (pathJoin sd s) (objPathOf bd s)).1 with _ | _
        · rw [buildSources_cons_fail hp hc] at he
          simp only [List.mem_cons, List.not_mem_nil, or_false] at he
          rcases he with rfl | rfl
          · exact Or.inl ⟨_, _, rfl⟩
          · exact Or.inr ⟨_, rfl⟩
        · rw [buildSources_cons_ok hp hc] at he
          rcases List.mem_cons.mp he with rfl | he
          · exact Or.inl ⟨_, _, rfl⟩
          · exact ih _ e he
      · rw [buildSources_cons_absent hp] at he
        simp only [List.mem_cons, List.not_mem_nil, or_false] at he
        exact Or.inr ⟨_, he⟩

theorem buildSources_mono {env : Env} {sd bd : String} :
    ∀ (srcs fs : List String) (x : String), x ∈ fs →
      x ∈ (buildSources env sd bd srcs fs).2.1 := by
  intro srcs
  induction srcs with
  | nil => intro fs x hx; simpa [buildSources] using hx
  | cons s rest ih =>
      intro fs x hx
      by_cases hp : pathJoin sd s ∈ fs
      · rcases hc : (compile_asm env (pathJoin sd s) (objPathOf bd s)).1 with _ | _
        · rw [buildSources_cons_fail hp hc]; exact hx
        · rw [buildSources_cons_ok hp hc]
          exact ih _ x (fsInsert_mono hx)
      · rw [buildSources_cons_absent hp]; exact hx

theorem buildSources_none {env : Env} {sd bd : String} {S fs0 : List String}
    (hsep : SrcObjSep sd bd S) :
    ∀ (srcs fsCur : List String), SrcInv sd S fs0 fsCur →
      (∀ s ∈ srcs, s ∈ S) →
      (∃ m ∈ srcs, pathJoin sd m ∉ fs0) →
      (buildSources env sd bd srcs fsCur).1 = none := by
  intro srcs
  induction srcs with
  | nil => intro fsCur _ _ hex; simp at hex
  | cons s rest ih =>
      intro fsCur hinv hsub hex
      obtain ⟨m, hm, hmiss⟩ := hex
      by_cases hp : pathJoin sd s ∈ fsCur
      · rcases hc : (compile_asm env (pathJoin sd s) (objPathOf bd s)).1 with _ | _
        · rw [buildSources_cons_fail hp hc]
        · rw [buildSources_cons_ok hp hc]
          have hsS : s ∈ S := hsub s (by simp)
          have hmrest : m ∈ rest := by
            rcases List.mem_cons.mp hm with rfl | hr
            · exact absurd ((hinv m hsS).mp hp) hmiss
            · exact hr
          have hinv2 : SrcInv sd S fs0 (fsInsert fsCur (objPathOf bd s)) :=
            srcInv_insert hinv (fun u hu => hsep u hu s hsS)
          have := ih (fsInsert fsCur (objPathOf bd s)) hinv2
            (fun u hu => hsub u (by simp [hu])) ⟨m, hmrest, hmiss⟩
          simp [this]
      · rw [buildSources_cons_absent hp]

theorem buildSources_no_compile_from {env : Env} {sd bd : String} {S fs0 : List String}
    (hsep : SrcObjSep sd bd S) :
    ∀ (pre : List String) (m : String) (post fsCur : List String),
      SrcInv sd S fs0 fsCur →
      (∀ s ∈ pre ++ m :: post, s ∈ S) →
      (pre ++ m :: post).Nodup →
      pathJoin sd m ∉ fs0 →
      ∀ t ∈ m :: post, ∀ o,
        Event.compile (pathJoin sd t) o ∉
          (buildSources env sd bd (pre ++ m :: post) fsCur).2.2 := by
  intro pre
  induction pre with
  | nil =>
      intro m post fsCur hinv hsub _ hmiss t ht o
      have hmS : m ∈ S := hsub m (by simp)
      have hp : pathJoin sd m ∉ fsCur := fun hc => hmiss ((hinv m hmS).mp hc)
      rw [List.nil_append, buildSources_cons_absent hp]
      simp
  | cons p pre' ih =>
      intro m post fsCur hinv hsub hnd hmiss t ht o
      have hpS : p ∈ S := hsub p (by simp)
      have hpt : p ≠ t := by
        intro h
        subst h
        have hdisj := List.disjoint_of_nodup_append hnd
        exact hdisj (by simp) ht
      have hne : Event.compile (pathJoin sd t) o ≠
          Event.compile (pathJoin sd p) (objPathOf bd p) := by
        intro h
        injection h with h1 _
        exact hpt (pathJoin_right_inj h1.symm)
      rw [List.cons_append] at hnd ⊢
      by_cases hp : pathJoin sd p ∈ fsCur
      · rcases hc : (compile_asm env (pathJoin sd p) (objPathOf bd p)).1 with _ | _
        · rw [buildSources_cons_fail hp hc]
          intro hmem
          simp only [List.mem_cons, List.not_mem_nil, or_false] at hmem
          rcases hmem with hmem | hmem
          · exact hne hmem
          · exact Event.noConfusion hmem
        · rw [buildSources_cons_ok hp hc]
          intro hmem
          rcases List.mem_cons.mp hmem with hmem | hmem
          · exact hne hmem
          · have hinv2 : SrcInv sd S fs0 (fsInsert fsCur (objPathOf bd p)) :=
              srcInv_insert hinv (fun u hu => hsep u hu p hpS)
            exact ih m post (fsInsert fsCur (objPathOf bd p)) hinv2
              (fun u hu => hsub u (by simp [hu]))
              (List.Nodup.of_cons hnd) hmiss t ht o hmem
      · rw [buildSources_cons_absent hp]
        simp

/-- Processing a prefix whose sources all exist and compile reduces the loop
to the remaining sources, over a file set extended with the prefix objects. -/
theorem buildSources_prefix {env : Env} {sd bd : String} {S fs0 : List String}
    (hsep : SrcObjSep sd bd S) :
    ∀ (pre rest fsCur : List String),
      SrcInv sd S fs0 fsCur →
      (∀ s ∈ pre, s ∈ S) →
      (∀ s ∈ pre, pathJoin sd s ∈ fs0 ∧
        (compile_asm env (pathJoin sd s) (objPathOf bd s)).1 = true) →
      ∃ fs1, SrcInv sd S fs0 fs1 ∧ (∀ x ∈ fsCur, x ∈ fs1) ∧
        (∀ s ∈ pre, objPathOf bd s ∈ fs1) ∧
        buildSources env sd bd (pre ++ rest) fsCur =
          ((buildSources env sd bd rest fs1).1.map
             (fun l => pre.map (objPathOf bd) ++ l),
           (buildSources env sd bd rest fs1).2.1,
           pre.map (fun s => Event.compile (pathJoin sd s) (objPathOf bd s)) ++
             (buildSources env sd bd rest fs1).2.2) := by
  intro pre
  induction pre with
  | nil =>
      intro rest fsCur hinv _ _
      refine ⟨fsCur, hinv, fun x hx => hx, by simp, ?_⟩
      simp
  | cons p pre' ih =>
      intro rest fsCur hinv hsub hpre
      have hpS : p ∈ S := hsub p (by simp)
      have hpfs0 : pathJoin sd p ∈ fs0 := (hpre p (by simp)).1
      have hpok : (compile_asm env (pathJoin sd p) (objPathOf bd p)).1 = true :=
        (hpre p (by simp)).2
      have hpfsCur : pathJoin sd p ∈ fsCur := (hinv p hpS).mpr hpfs0
      have hinv2 : SrcInv sd S fs0 (fsInsert fsCur (objPathOf bd p)) :=
        srcInv_insert hinv (fun u hu => hsep u hu p hpS)
      obtain ⟨fs1, h1, h2, h3, heq⟩ := ih rest (fsInsert fsCur (objPathOf bd p)) hinv2
        (fun u hu => hsub u (by simp [hu]))
        (fun u hu => hpre u (by simp [hu]))
      refine ⟨fs1, h1, fun x hx => h2 x (fsInsert_mono hx), ?_, ?_⟩
      · intro s hs
        rcases List.mem_cons.mp hs with rfl | hs
        · exact h2 _ self_mem_fsInsert
        · exact h3 s hs
      · rw [List.cons_append, buildSources_cons_ok hpfsCur hpok, heq]
        refine Prod.ext ?_ (Prod.ext ?_ ?_)
        · simp [Option.map_map]
          rfl
        · rfl
        · simp

/-! Lemmas about the dependency check. -/

theorem checkDepsLoop_fst {env : Env} :
    ∀ ds : List String,
      (checkDepsLoop env ds).1 = true ↔ ∀ d ∈ ds, env.whichOk d = true := by
  intro ds
  induction ds with
  | nil => simp [checkDepsLoop]
  | cons d rest ih =>
      by_cases h : env.whichOk d = true
      · simp [checkDepsLoop, h, ih]
      · simp [checkDepsLoop, h]

theorem checkDepsLoop_snd {env : Env} :
    ∀ ds : List String,
      (checkDepsLoop env ds).2 =
        (ds.filter (fun d => !env.whichOk d)).map
          (fun d => Event.logError ("Required tool not found: " ++ d)) := by
  intro ds
  induction ds with
  | nil => simp [checkDepsLoop]
  | cons d rest ih =>
      by_cases h : env.whichOk d = true
      · simp [checkDepsLoop, h, ih]
      · simp only [checkDepsLoop, h, if_neg]
        rw [List.filter_cons_of_pos (by simp [h])]
        simp [ih]

theorem checkDeps_events {env : Env} :
    ∀ e ∈ (check_dependencies env).2, ∃ m, e = Event.logError m := by
  intro e he
  rw [check_dependencies, checkDepsLoop_snd] at he
  obtain ⟨d, _, rfl⟩ := List.mem_map.mp he
  exact ⟨_, rfl⟩

/-! Lemmas about cleanup. -/

theorem removeFiles_events {env : Env} :
    ∀ (ts fs : List String), ∀ e ∈ (removeFiles env ts fs).2.2,
      ∃ p, e = Event.remove p ∧ p ∈ ts := by
  intro ts
  induction ts with
  | nil => intro fs e he; simp [removeFiles] at he
  | cons t rest ih =>
      intro fs e he
      by_cases h : env.unlinkOk t = true
      · simp only [removeFiles, h, if_pos] at he
        rcases List.mem_cons.mp he with rfl | he
        · exact ⟨t, rfl, by simp⟩
        · obtain ⟨p, hp, hmem⟩ := ih (fsErase fs t) e he
          exact ⟨p, hp, by simp [hmem]⟩
      · simp [removeFiles, h] at he

theorem fsErase_of_ne {fs : List String} {x p : String} (h : x ≠ p) :
    fsErase (x :: fs) p = x :: fsErase fs p := by
  simp [fsErase, h]

theorem removeFiles_sep {env : Env} :
    ∀ (ts fs : List String) (x : String), (∀ t ∈ ts, t ≠ x) →
      removeFiles env ts (x :: fs) =
        ((removeFiles env ts fs).1, x :: (removeFiles env ts fs).2.1,
         (removeFiles env ts fs).2.2) := by
  intro ts
  induction ts with
  | nil => intro fs x _; simp [removeFiles]
  | cons t rest ih =>
      intro fs x hne
      by_cases h : env.unlinkOk t = true
      · have hxt : x ≠ t := fun hx => (hne t (by simp)) hx.symm
        simp only [removeFiles, h, if_pos, fsErase_of_ne hxt]
        rw [ih (fsErase fs t) x (fun u hu => hne u (by simp [hu]))]
      · simp [removeFiles, h]

theorem removeFiles_filter {env : Env} {P : String → Bool}
    (hP : ∀ p, P p = true → env.unlinkOk p = true) :
    ∀ fs : List String,
      removeFiles env (fs.filter P) fs =
        (true, fs.filter (fun p => !(P p)), (fs.filter P).map Event.remove) := by
  intro fs
  induction fs with
  | nil => simp [removeFiles]
  | cons x fs ih =>
      by_cases hx : P x = true
      · rw [List.filter_cons_of_pos (by simp [hx])]
        simp only [removeFiles, hP x hx, if_pos, fsErase, if_pos rfl]
        rw [ih]
        rw [List.filter_cons_of_neg (by simp [hx])]
        simp
      · rw [List.filter_cons_of_neg (by simp [hx])]
        have hne : ∀ t ∈ fs.filter P, t ≠ x := by
          intro t ht htx
          subst htx
          exact hx (List.of_mem_filter ht)
        rw [removeFiles_sep (fs.filter P) fs x hne, ih]
        rw [List.filter_cons_of_pos (by simp [hx])]

theorem clean_build_ok {env : Env} {sd bd : String}
    (hok : ∀ p, env.unlinkOk p = true) (fs : List String) :
    clean_build env sd bd fs =
      (true,
       (fs.filter (fun p => !(isObjIn bd p))).filter (fun p => !(isArchiveIn sd p)),
       (fs.filter (fun p => isObjIn bd p)).map Event.remove ++
         ((fs.filter (fun p => !(isObjIn bd p))).filter
            (fun p => isArchiveIn sd p)).map Event.remove) := by
  have h1 := @removeFiles_filter env (fun p => isObjIn bd p)
    (fun p _ => hok p) fs
  have h2 := @removeFiles_filter env (fun p => isArchiveIn sd p)
    (fun p _ => hok p) (fs.filter (fun p => !(isObjIn bd p)))
  simp only [clean_build, h1, if_pos, h2]

theorem clean_build_events {env : Env} {sd bd : String} {fs : List String} :
    ∀ e ∈ (clean_build env sd bd fs).2.2, ∃ p, e = Event.remove p := by
  intro e he
  simp only [clean_build] at he
  split at he
  · rcases List.mem_append.mp he with h | h
    · obtain ⟨p, hp, _⟩ := removeFiles_events _ _ e h
      exact ⟨p, hp⟩
    · obtain ⟨p, hp, _⟩ := removeFiles_events _ _ e h
      exact ⟨p, hp⟩
  · obtain ⟨p, hp, _⟩ := removeFiles_events _ _ e he
    exact ⟨p, hp⟩

/-! Facts about the declared collections. -/

theorem collections_cases {name : String} {sources : List String}
    (h : (name, sources) ∈ collections) :
    (name = "libcore" ∧ sources = CORE_SOURCES) ∨
      (name = "libstd" ∧ sources = STD_SOURCES) := by
  simp only [collections, List.mem_cons, List.not_mem_nil, or_false] at h
  rcases h with h | h
  · exact Or.inl ⟨congrArg Prod.fst h, congrArg Prod.snd h⟩
  · exact Or.inr ⟨congrArg Prod.fst h, congrArg Prod.snd h⟩

theorem collections_nodup {name : String} {sources : List String}
    (h : (name, sources) ∈ collections) : sources.Nodup := by
  rcases collections_cases h with ⟨_, rfl⟩ | ⟨_, rfl⟩ <;> decide

/-- Every declared source path ends in the letter m (of ".asm") and its
object name ends in the letter o (of ".o"); both are nonempty. -/
theorem declared_last_chars :
    ∀ s ∈ CORE_SOURCES ++ STD_SOURCES,
      s.data ≠ [] ∧ lastC s.data = some 'm' ∧
      (objName s).data ≠ [] ∧ lastC (objName s).data = some 'o' := by
  decide

theorem collections_sub {name : String} {sources : List String}
    (h : (name, sources) ∈ collections) :
    ∀ s ∈ sources, s ∈ CORE_SOURCES ++ STD_SOURCES := by
  rcases collections_cases h with ⟨_, rfl⟩ | ⟨_, rfl⟩
  · exact fun s hs => List.mem_append_left _ hs
  · exact fun s hs => List.mem_append_right _ hs

/-- For any root directory, a declared source path never equals a declared
object path: sources end in ".asm", objects in ".o". -/
theorem collections_sep {name : String} {sources : List String}
    (h : (name, sources) ∈ collections) (sd bd : String) :
    SrcObjSep sd bd sources := by
  intro s hs t ht heq
  obtain ⟨hs1, hs2, _, _⟩ := declared_last_chars s (collections_sub h s hs)
  obtain ⟨_, _, ht3, ht4⟩ := declared_last_chars t (collections_sub h t ht)
  have hl : lastC (pathJoin sd s).data = lastC (objPathOf bd t).data := by rw [heq]
  rw [lastC_pathJoin hs1] at hl
  rw [objPathOf, lastC_pathJoin ht3] at hl
  rw [hs2, ht4] at hl
  simp at hl

/-! Event shape lemmas for whole-collection builds. -/

theorem build_library_head {env : Env} {name sd bd : String}
    {sources fs : List String} :
    ∃ t, (build_library env name sources sd bd fs).2.2 = Event.buildStart name :: t := by
  rcases hr : (buildSources env sd bd sources fs).1 with _ | objs
  · exact ⟨_, congrArg (fun r => r.2.2) (build_library_none hr)⟩
  · exact ⟨_, congrArg (fun r => r.2.2) (build_library_some hr)⟩

theorem build_library_events {env : Env} {name sd bd : String}
    {sources fs : List String} :
    ∀ e ∈ (build_library env name sources sd bd fs).2.2,
      e = Event.buildStart name ∨ (∃ s o, e = Event.compile s o) ∨
      (∃ m, e = Event.logError m) ∨ (∃ d os, e = Event.archive d os) := by
  intro e he
  rcases hr : (buildSources env sd bd sources fs).1 with _ | objs
  · rw [build_library_none hr] at he
    rcases List.mem_cons.mp he with rfl | he
    · exact Or.inl rfl
    · rcases buildSources_events _ _ e he with h | h
      · exact Or.inr (Or.inl h)
      · exact Or.inr (Or.inr (Or.inl h))
  · rw [build_library_some hr] at he
    rcases List.mem_cons.mp he with rfl | he
    · exact Or.inl rfl
    · rcases List.mem_append.mp he with he | he
      · rcases buildSources_events _ _ e he with h | h
        · exact Or.inr (Or.inl h)
        · exact Or.inr (Or.inr (Or.inl h))
      · obtain ⟨t, ht, hlog⟩ :=
          @create_archive_trace env objs (pathJoin sd (name ++ ".a"))
        rw [ht] at he
        rcases List.mem_cons.mp he with rfl | he
        · exact Or.inr (Or.inr (Or.inr ⟨_, _, rfl⟩))
        · exact Or.inr (Or.inr (Or.inl (hlog e he)))

/-! Concrete hosts used to instantiate the claims. -/

/-- A host on which every tool resolves, every command succeeds, and every
unlink succeeds. -/
def envAllOk : Env :=
  ⟨fun _ => true, fun _ => ProcOutcome.completed 0 "", fun _ => true⟩

/-- A host on which no tool resolves and launching any command fails. -/
def envNoTools : Env :=
  ⟨fun _ => false, fun _ => ProcOutcome.notFound, fun _ => true⟩

/-- A host on which tools resolve but every unlink fails. -/
def envNoUnlink : Env :=
  ⟨fun _ => true, fun _ => ProcOutcome.completed 0 "", fun _ => false⟩

/-- A host on which exactly the compile of S/core/str.asm fails. -/
def envFailStr : Env :=
  ⟨fun _ => true,
   fun cmd => if cmd.getD 3 "" = "S/core/str.asm" then ProcOutcome.completed 1 "bad opcode"
              else ProcOutcome.completed 0 "",
   fun _ => true⟩

/-! The claims. -/

/-- C4: the dependency check succeeds iff every required tool (nasm and ar)
resolves; it emits one diagnostic per missing tool, checking all tools; and
when it fails, the run exits with status 1 with the file set untouched and
no effect beyond those diagnostics (no cleanup, compilation or archiving). -/
theorem claim_C4 (env : Env) :
    ((check_dependencies env).1 = true ↔ ∀ d ∈ dependencies, env.whichOk d = true) ∧
    ((check_dependencies env).2 =
      (dependencies.filter (fun d => !env.whichOk d)).map
        (fun d => Event.logError ("Required tool not found: " ++ d))) ∧
    ((check_dependencies env).1 = false →
      ∀ (cf : Bool) (sd : String) (fs : List String),
        main env cf sd fs = ⟨1, false, fs, (check_dependencies env).2⟩) := by
  refine ⟨checkDepsLoop_fst dependencies, checkDepsLoop_snd dependencies, ?_⟩
  intro h cf sd fs
  simp [main, h]

/-- Witness for C4: on a host with no tools, the run stops at the dependency
check with exit 1, both tools reported and nothing else done. -/
theorem claim_C4_witness :
    main envNoTools true "S" ["S/build/x.o"] =
      ⟨1, false, ["S/build/x.o"],
       [Event.logError "Required tool not found: nasm",
        Event.logError "Required tool not found: ar"]⟩ := by
  have h := (claim_C4 envNoTools).2.2 (by decide) true "S" ["S/build/x.o"]
  rw [h]
  decide

/-- C6: the object-path transform is deterministic (it is a function) and
collision-free on each declared collection: two distinct sources of one
collection never share an object name. -/
theorem claim_C6 (name : String) (sources : List String)
    (h : (name, sources) ∈ collections) :
    ∀ s ∈ sources, ∀ t ∈ sources, s ≠ t → objName s ≠ objName t := by
  rcases collections_cases h with ⟨_, rfl⟩ | ⟨_, rfl⟩ <;> decide

/-- Witness for C6 at two concrete core sources. -/
theorem claim_C6_witness :
    objName "core/core.asm" ≠ objName "core/str.asm" :=
  claim_C6 "libcore" CORE_SOURCES (by decide)
    "core/core.asm" (by decide) "core/str.asm" (by decide) (by decide)

/-- C9 counterexample: the argument parser of main registers no option
called dash-dash-check, so the claimed validation flag does not exist. -/
theorem claim_C9_counterexample : "--check" ∉ cliOptions := by decide

/-- C9 (amended): the CLI accepts only the clean, verbose and stdlib-dir
options, and there is no validation mode: every run whose dependency check
passes proceeds to build the collections. -/
theorem claim_C9 :
    "--check" ∉ cliOptions ∧
    ∀ (env : Env) (sd : String) (fs : List String),
      (check_dependencies env).1 = true →
      Event.buildStart "libcore" ∈ (main env false sd fs).trace := by
  refine ⟨by decide, ?_⟩
  intro env sd fs h
  obtain ⟨t, ht⟩ :=
    @build_library_head env "libcore" sd (pathJoin sd "build") CORE_SOURCES fs
  by_cases h2 : (build_library env "libcore" CORE_SOURCES sd (pathJoin sd "build") fs).1 = true
  · by_cases h3 : (build_library env "libstd" STD_SOURCES sd (pathJoin sd "build")
        (build_library env "libcore" CORE_SOURCES sd (pathJoin sd "build") fs).2.1).1 = true
    · simp [main, h, h2, h3, ht]
    · simp [main, h, h2, h3, ht]
  · simp [main, h, h2, ht]

/-- Witness for C9: a run on an all-good host reaches the libcore build. -/
theorem claim_C9_witness :
    Event.buildStart "libcore" ∈ (main envAllOk false "S" []).trace :=
  claim_C9.2 envAllOk "S" [] (by decide)

/-- C10: run_command is total at the tool boundary: an absent executable or
a raised exception yields a failure result carrying a diagnostic instead of
propagating, a completed process maps to its exit status; consequently a
build-mode run (no clean requested) never crashes and exits 0 or 1. -/
theorem claim_C10 :
    (∀ command : List String,
      run_command ProcOutcome.notFound command =
        (false, "Command not found: " ++ command.headD "")) ∧
    (∀ (msg : String) (command : List String),
      run_command (ProcOutcome.raised msg) command = (false, msg)) ∧
    (∀ (code : Nat) (err : String) (command : List String),
      run_command (ProcOutcome.completed code err) command = (code == 0, err)) ∧
    (∀ (env : Env) (sd : String) (fs : List String),
      (main env false sd fs).crashed = false ∧
      ((main env false sd fs).exit = 0 ∨ (main env false sd fs).exit = 1)) := by
  refine ⟨fun _ => rfl, fun _ _ => rfl, fun _ _ _ => rfl, ?_⟩
  intro env sd fs
  by_cases h1 : (check_dependencies env).1 = true
  · by_cases h2 : (build_library env "libcore" CORE_SOURCES sd (pathJoin sd "build") fs).1 = true
    · by_cases h3 : (build_library env "libstd" STD_SOURCES sd (pathJoin sd "build")
          (build_library env "libcore" CORE_SOURCES sd (pathJoin sd "build") fs).2.1).1 = true
      · simp [main, h1, h2, h3]
      · simp [main, h1, h2, h3]
    · simp [main, h1, h2]
  · simp [main, h1]

/-- Witness for C10 at a concrete host without tools: the run fails cleanly. -/
theorem claim_C10_witness :
    (main envNoTools false "S" []).crashed = false ∧
    ((main envNoTools false "S" []).exit = 0 ∨ (main envNoTools false "S" []).exit = 1) :=
  claim_C10.2.2.2 envNoTools "S" []

/-- Is an event an archiver invocation. -/
def isArchiveEv : Event → Bool
  | Event.archive _ _ => true
  | _ => false

/-- C3: for a declared collection whose sources all exist and all compile,
the archiver is invoked exactly once, with the destination archive path and
the produced object paths in exactly the declared source order. -/
theorem claim_C3 (env : Env) (sd : String) (fs : List String)
    (name : String) (sources : List String)
    (hcol : (name, sources) ∈ collections)
    (hex : ∀ s ∈ sources, pathJoin sd s ∈ fs)
    (hok : ∀ s ∈ sources,
      (compile_asm env (pathJoin sd s) (objPathOf (pathJoin sd "build") s)).1 = true) :
    (build_library env name sources sd (pathJoin sd "build") fs).2.2.filter isArchiveEv =
      [Event.archive (pathJoin sd (name ++ ".a"))
         (sources.map (objPathOf (pathJoin sd "build")))] := by
  have hsep := collections_sep hcol sd (pathJoin sd "build")
  obtain ⟨fs1, _, _, _, heq⟩ := buildSources_prefix hsep sources [] fs
    (srcInv_refl sd sources fs) (fun s hs => hs)
    (fun s hs => ⟨hex s hs, hok s hs⟩)
  rw [List.append_nil] at heq
  have hsome : (buildSources env sd (pathJoin sd "build") sources fs).1 =
      some (sources.map (objPathOf (pathJoin sd "build"))) := by
    rw [heq]; simp [buildSources]
  have htr : (buildSources env sd (pathJoin sd "build") sources fs).2.2 =
      sources.map (fun s => Event.compile (pathJoin sd s) (objPathOf (pathJoin sd "build") s)) := by
    rw [heq]; simp [buildSources]
  rw [build_library_some hsome]
  obtain ⟨t, ht, hlog⟩ := @create_archive_trace env
    (sources.map (objPathOf (pathJoin sd "build")))
    (pathJoin sd (name ++ ".a"))
  have h1 : (sources.map (fun s =>
      Event.compile (pathJoin sd s) (objPathOf (pathJoin sd "build") s))).filter
        isArchiveEv = [] := by
    rw [List.filter_eq_nil_iff]
    intro e he
    obtain ⟨s, _, rfl⟩ := List.mem_map.mp he
    simp [isArchiveEv]
  have h2 : t.filter isArchiveEv = [] := by
    rw [List.filter_eq_nil_iff]
    intro e he
    obtain ⟨m, rfl⟩ := hlog e he
    simp [isArchiveEv]
  simp [isArchiveEv, List.filter_append, htr, ht, h1, h2]

/-- Witness for C3: a full successful libcore build on an all-good host. -/
theorem claim_C3_witness :
    (build_library envAllOk "libcore" CORE_SOURCES "S" (pathJoin "S" "build")
       (CORE_SOURCES.map (fun s => pathJoin "S" s))).2.2.filter isArchiveEv =
      [Event.archive (pathJoin "S" ("libcore" ++ ".a"))
         (CORE_SOURCES.map (objPathOf (pathJoin "S" "build")))] :=
  claim_C3 envAllOk "S" (CORE_SOURCES.map (fun s => pathJoin "S" s))
    "libcore" CORE_SOURCES (by decide) (by decide) (by decide)

/-- C5: when the compiler fails on source i of a declared collection (all
earlier sources present and compiled), the collection build aborts, the
objects already produced for the earlier sources are still in the final file
set, nothing that was on disk is removed, and the archiver is not invoked. -/
theorem claim_C5 (env : Env) (sd : String) (fs : List String)
    (name : String) (sources : List String)
    (hcol : (name, sources) ∈ collections)
    (i : Nat) (hi : i < sources.length)
    (hpre : ∀ s ∈ sources.take i, pathJoin sd s ∈ fs ∧
      (compile_asm env (pathJoin sd s) (objPathOf (pathJoin sd "build") s)).1 = true)
    (hex : pathJoin sd (sources.get ⟨i, hi⟩) ∈ fs)
    (hfail : (compile_asm env (pathJoin sd (sources.get ⟨i, hi⟩))
      (objPathOf (pathJoin sd "build") (sources.get ⟨i, hi⟩))).1 = false) :
    (build_library env name sources sd (pathJoin sd "build") fs).1 = false ∧
    (∀ s ∈ sources.take i,
      objPathOf (pathJoin sd "build") s ∈
        (build_library env name sources sd (pathJoin sd "build") fs).2.1) ∧
    (∀ x ∈ fs, x ∈ (build_library env name sources sd (pathJoin sd "build") fs).2.1) ∧
    (∀ p, Event.remove p ∉
      (build_library env name sources sd (pathJoin sd "build") fs).2.2) ∧
    (∀ d os, Event.archive d os ∉
      (build_library env name sources sd (pathJoin sd "build") fs).2.2) := by
  have hsep := collections_sep hcol sd (pathJoin sd "build")
  have hdecomp : sources =
      sources.take i ++ sources.get ⟨i, hi⟩ :: sources.drop (i + 1) := by
    conv_lhs => rw [← List.take_append_drop i sources]
    rw [List.drop_eq_getElem_cons hi, List.get_eq_getElem]
  obtain ⟨fs1, hinv1, hmono1, hobj1, heq⟩ := buildSources_prefix hsep
    (sources.take i) (sources.get ⟨i, hi⟩ :: sources.drop (i + 1)) fs
    (srcInv_refl sd sources fs)
    (fun s hs => List.take_subset i sources hs)
    (fun s hs => hpre s hs)
  have hgm : sources.get ⟨i, hi⟩ ∈ sources := List.get_mem sources i hi
  have hhead : pathJoin sd (sources.get ⟨i, hi⟩) ∈ fs1 := (hinv1 _ hgm).mpr hex
  have hinner := @buildSources_cons_fail env sd (pathJoin sd "build")
    (sources.get ⟨i, hi⟩) (sources.drop (i + 1)) fs1 hhead hfail
  rw [hinner] at heq
  rw [← hdecomp] at heq
  have hnone : (buildSources env sd (pathJoin sd "build") sources fs).1 = none := by
    rw [heq]; rfl
  have hfs : (buildSources env sd (pathJoin sd "build") sources fs).2.1 = fs1 := by
    rw [heq]
  have htr : (buildSources env sd (pathJoin sd "build") sources fs).2.2 =
      (sources.take i).map (fun s =>
        Event.compile (pathJoin sd s) (objPathOf (pathJoin sd "build") s)) ++
      [Event.compile (pathJoin sd (sources.get ⟨i, hi⟩))
         (objPathOf (pathJoin sd "build") (sources.get ⟨i, hi⟩)),
       Event.logError ("Failed to compile " ++ pathJoin sd (sources.get ⟨i, hi⟩))] := by
    rw [heq]
  refine ⟨?_, ?_, ?_, ?_, ?_⟩
  · rw [build_library_none hnone]
  · intro s hs
    rw [build_library_none hnone]
    simpa [hfs] using hobj1 s hs
  · intro x hx
    rw [build_library_none hnone]
    simpa [hfs] using hmono1 x hx
  · intro p
    rw [build_library_none hnone]
    simp only [List.mem_cons, htr, List.mem_append, List.mem_map,
      List.not_mem_nil, or_false]
    rintro (h | ⟨s, _, h⟩ | h | h) <;> exact Event.noConfusion h
  · intro d os
    rw [build_library_none hnone]
    simp only [List.mem_cons, htr, List.mem_append, List.mem_map,
      List.not_mem_nil, or_false]
    rintro (h | ⟨s, _, h⟩ | h | h) <;> exact Event.noConfusion h

/-- Witness for C5: the compile of the second core source fails; the first
object is still present, nothing was removed, no archive attempted. -/
theorem claim_C5_witness :
    (build_library envFailStr "libcore" CORE_SOURCES "S" (pathJoin "S" "build")
       ["S/core/core.asm", "S/core/str.asm"]).1 = false ∧
    objPathOf (pathJoin "S" "build") "core/core.asm" ∈
      (build_library envFailStr "libcore" CORE_SOURCES "S" (pathJoin "S" "build")
         ["S/core/core.asm", "S/core/str.asm"]).2.1 ∧
    Event.remove "S/build/core_core.o" ∉
      (build_library envFailStr "libcore" CORE_SOURCES "S" (pathJoin "S" "build")
         ["S/core/core.asm", "S/core/str.asm"]).2.2 ∧
    Event.archive "S/libcore.a" [] ∉
      (build_library envFailStr "libcore" CORE_SOURCES "S" (pathJoin "S" "build")
         ["S/core/core.asm", "S/core/str.asm"]).2.2 := by
  have h := claim_C5 envFailStr "S" ["S/core/core.asm", "S/core/str.asm"]
    "libcore" CORE_SOURCES (by decide) 1 (by decide)
    (by decide) (by decide) (by decide)
  exact ⟨h.1, h.2.1 "core/core.asm" (by decide),
    h.2.2.2.1 "S/build/core_core.o", h.2.2.2.2 "S/libcore.a" []⟩

theorem get_mem_drop {α : Type _} :
    ∀ (i : Nat) (l : List α) (j : Nat) (hj : j < l.length), i ≤ j →
      l.get ⟨j, hj⟩ ∈ l.drop i := by
  intro i
  induction i with
  | zero => intro l j hj _; simp only [List.drop_zero]; exact List.get_mem l j hj
  | succ i ih =>
      intro l j hj hij
      cases l with
      | nil => simp at hj
      | cons x xs =>
          cases j with
          | zero => omega
          | succ k =>
              have hk : k < xs.length := by
                simp only [List.length_cons] at hj
                omega
              have hx : (x :: xs).get ⟨k + 1, hj⟩ = xs.get ⟨k, hk⟩ := rfl
              rw [List.drop_succ_cons, hx]
              exact ih xs k hk (by omega)

/-- C1: if a declared source of a collection is absent, the collection build
fails, the archiver is never invoked for the collection, no compiler
invocation happens for the missing source or any later source, and when
every earlier source exists and compiles the missing file is reported. -/
theorem claim_C1 (env : Env) (sd : String) (fs : List String)
    (name : String) (sources : List String)
    (hcol : (name, sources) ∈ collections)
    (i : Nat) (hi : i < sources.length)
    (hmiss : pathJoin sd (sources.get ⟨i, hi⟩) ∉ fs) :
    (build_library env name sources sd (pathJoin sd "build") fs).1 = false ∧
    (∀ d os, Event.archive d os ∉
      (build_library env name sources sd (pathJoin sd "build") fs).2.2) ∧
    (∀ j (hj : j < sources.length), i ≤ j → ∀ o,
      Event.compile (pathJoin sd (sources.get ⟨j, hj⟩)) o ∉
        (build_library env name sources sd (pathJoin sd "build") fs).2.2) ∧
    ((∀ s ∈ sources.take i, pathJoin sd s ∈ fs ∧
        (compile_asm env (pathJoin sd s) (objPathOf (pathJoin sd "build") s)).1 = true) →
      Event.logError ("Source file not found: " ++ pathJoin sd (sources.get ⟨i, hi⟩)) ∈
        (build_library env name sources sd (pathJoin sd "build") fs).2.2) := by
  have hsep := collections_sep hcol sd (pathJoin sd "build")
  have hnd := collections_nodup hcol
  have hgm : sources.get ⟨i, hi⟩ ∈ sources := List.get_mem sources i hi
  have hdecomp : sources =
      sources.take i ++ sources.get ⟨i, hi⟩ :: sources.drop (i + 1) := by
    conv_lhs => rw [← List.take_append_drop i sources]
    rw [List.drop_eq_getElem_cons hi, List.get_eq_getElem]
  have hnone : (buildSources env sd (pathJoin sd "build") sources fs).1 = none :=
    buildSources_none hsep sources fs (srcInv_refl sd sources fs)
      (fun s hs => hs) ⟨sources.get ⟨i, hi⟩, hgm, hmiss⟩
  refine ⟨?_, ?_, ?_, ?_⟩
  · rw [build_library_none hnone]
  · intro d os h
    rw [build_library_none hnone] at h
    rcases List.mem_cons.mp h with h | h
    · exact Event.noConfusion h
    · rcases buildSources_events _ _ _ h with ⟨s, o, h⟩ | ⟨m, h⟩ <;>
        exact Event.noConfusion h
  · intro j hj hij o h
    rw [build_library_none hnone] at h
    rcases List.mem_cons.mp h with h | h
    · exact Event.noConfusion h
    · have hmem : sources.get ⟨j, hj⟩ ∈
          sources.get ⟨i, hi⟩ :: sources.drop (i + 1) := by
        rcases Nat.eq_or_lt_of_le hij with rfl | hlt
        · exact List.mem_cons_self _ _
        · exact List.mem_cons_of_mem _
            (get_mem_drop (i + 1) sources j hj (by omega))
      have := @buildSources_no_compile_from env sd (pathJoin sd "build")
        sources fs hsep (sources.take i)
        (sources.get ⟨i, hi⟩) (sources.drop (i + 1)) fs
        (srcInv_refl sd sources fs)
        (by rw [← hdecomp]; exact fun s hs => hs)
        (by rw [← hdecomp]; exact hnd) hmiss
        (sources.get ⟨j, hj⟩) hmem o
      rw [← hdecomp] at this
      exact this h
  · intro hpre
    obtain ⟨fs1, hinv1, _, _, heq⟩ := buildSources_prefix hsep
      (sources.take i) (sources.get ⟨i, hi⟩ :: sources.drop (i + 1)) fs
      (srcInv_refl sd sources fs)
      (fun s hs => List.take_subset i sources hs)
      (fun s hs => hpre s hs)
    have hhead : pathJoin sd (sources.get ⟨i, hi⟩) ∉ fs1 :=
      fun hc => hmiss ((hinv1 _ hgm).mp hc)
    have hinner := @buildSources_cons_absent env sd (pathJoin sd "build")
      (sources.get ⟨i, hi⟩) (sources.drop (i + 1)) fs1 hhead
    rw [hinner] at heq
    rw [← hdecomp] at heq
    have htr : (buildSources env sd (pathJoin sd "build") sources fs).2.2 =
        (sources.take i).map (fun s =>
          Event.compile (pathJoin sd s) (objPathOf (pathJoin sd "build") s)) ++
        [Event.logError ("Source file not found: " ++
          pathJoin sd (sources.get ⟨i, hi⟩))] := by
      rw [heq]
    rw [build_library_none hnone, htr]
    simp

/-- Witness for C1: every source is missing on an empty file set; the first
core source is reported and never compiled, and no archive is attempted. -/
theorem claim_C1_witness :
    (build_library envAllOk "libcore" CORE_SOURCES "S" (pathJoin "S" "build") []).1
      = false ∧
    Event.archive "S/libcore.a" [] ∉
      (build_library envAllOk "libcore" CORE_SOURCES "S" (pathJoin "S" "build") []).2.2 ∧
    Event.compile (pathJoin "S" "core/core.asm") "S/build/core_core.o" ∉
      (build_library envAllOk "libcore" CORE_SOURCES "S" (pathJoin "S" "build") []).2.2 ∧
    Event.logError ("Source file not found: " ++ pathJoin "S" "core/core.asm") ∈
      (build_library envAllOk "libcore" CORE_SOURCES "S" (pathJoin "S" "build") []).2.2 := by
  have h := claim_C1 envAllOk "S" [] "libcore" CORE_SOURCES (by decide)
    0 (by decide) (by decide)
  exact ⟨h.1, h.2.1 "S/libcore.a" [],
    h.2.2.1 0 (by decide) (by decide) "S/build/core_core.o",
    h.2.2.2 (by decide)⟩

/-- C2: collections run in declared order; when the dependency check passes
but the libcore build fails for any reason, the run exits with status 1
without crashing, the libstd collection is never started, and the whole
trace is the dependency diagnostics plus the libcore events.  In every run,
libstd is only ever started after libcore was started. -/
theorem claim_C2 (env : Env) (sd : String) (fs : List String) :
    ((check_dependencies env).1 = true →
      (build_library env "libcore" CORE_SOURCES sd (pathJoin sd "build") fs).1 = false →
      (main env false sd fs).exit = 1 ∧
      (main env false sd fs).crashed = false ∧
      Event.buildStart "libstd" ∉ (main env false sd fs).trace ∧
      (main env false sd fs).trace =
        (check_dependencies env).2 ++
          (build_library env "libcore" CORE_SOURCES sd (pathJoin sd "build") fs).2.2) ∧
    (∀ cf, Event.buildStart "libstd" ∈ (main env cf sd fs).trace →
      Event.buildStart "libcore" ∈ (main env cf sd fs).trace) := by
  constructor
  · intro h1 h2
    have hmain : main env false sd fs =
        ⟨1, false,
         (build_library env "libcore" CORE_SOURCES sd (pathJoin sd "build") fs).2.1,
         (check_dependencies env).2 ++
           (build_library env "libcore" CORE_SOURCES sd (pathJoin sd "build") fs).2.2⟩ := by
      simp [main, h1, h2]
    refine ⟨by rw [hmain], by rw [hmain], ?_, by rw [hmain]⟩
    rw [hmain]
    intro hmem
    rcases List.mem_append.mp hmem with h | h
    · obtain ⟨m, hm⟩ := checkDeps_events _ h
      exact Event.noConfusion hm
    · rcases build_library_events _ h with h | ⟨s, o, h⟩ | ⟨m, h⟩ | ⟨d, os, h⟩
      · injection h with h
        exact absurd h (by decide)
      · exact Event.noConfusion h
      · exact Event.noConfusion h
      · exact Event.noConfusion h
  · intro cf hmem
    by_cases h1 : (check_dependencies env).1 = true
    · cases cf with
      | false =>
          obtain ⟨t, ht⟩ :=
            @build_library_head env "libcore" sd (pathJoin sd "build") CORE_SOURCES fs
          by_cases h2 : (build_library env "libcore" CORE_SOURCES sd
              (pathJoin sd "build") fs).1 = true
          · by_cases h3 : (build_library env "libstd" STD_SOURCES sd (pathJoin sd "build")
                (build_library env "libcore" CORE_SOURCES sd (pathJoin sd "build") fs).2.1).1
                = true
            · simp [main, h1, h2, h3, ht]
            · simp [main, h1, h2, h3, ht]
          · simp [main, h1, h2, ht]
      | true =>
          by_cases hc : (clean_build env sd (pathJoin sd "build") fs).1 = true
          · obtain ⟨t, ht⟩ :=
              @build_library_head env "libcore" sd (pathJoin sd "build") CORE_SOURCES
                (clean_build env sd (pathJoin sd "build") fs).2.1
            by_cases h2 : (build_library env "libcore" CORE_SOURCES sd
                (pathJoin sd "build") (clean_build env sd (pathJoin sd "build") fs).2.1).1
                = true
            · by_cases h3 : (build_library env "libstd" STD_SOURCES sd (pathJoin sd "build")
                  (build_library env "libcore" CORE_SOURCES sd (pathJoin sd "build")
                    (clean_build env sd (pathJoin sd "build") fs).2.1).2.1).1 = true
              · simp [main, h1, hc, h2, h3, ht]
              · simp [main, h1, hc, h2, h3, ht]
            · simp [main, h1, hc, h2, ht]
          · exfalso
            have hmain : main env true sd fs =
                ⟨1, true, (clean_build env sd (pathJoin sd "build") fs).2.1,
                 (check_dependencies env).2 ++
                   (clean_build env sd (pathJoin sd "build") fs).2.2⟩ := by
              simp [main, h1, hc]
            rw [hmain] at hmem
            rcases List.mem_append.mp hmem with h | h
            · obtain ⟨m, hm⟩ := checkDeps_events _ h
              exact Event.noConfusion hm
            · obtain ⟨p, hp⟩ := clean_build_events _ h
              exact Event.noConfusion hp
    · exfalso
      have hmain : main env cf sd fs = ⟨1, false, fs, (check_dependencies env).2⟩ := by
        simp [main, h1]
      rw [hmain] at hmem
      obtain ⟨m, hm⟩ := checkDeps_events _ hmem
      exact Event.noConfusion hm

/-- Witness for C2: with every source missing, libcore fails and the run
never starts libstd. -/
theorem claim_C2_witness :
    (main envAllOk false "S" []).exit = 1 ∧
    Event.buildStart "libstd" ∉ (main envAllOk false "S" []).trace := by
  have h := (claim_C2 envAllOk "S" []).1 (by decide) (by decide)
  exact ⟨h.1, h.2.2.1⟩

/-- C7: cleanup is idempotent: when removals succeed, a second clean on the
resulting file set succeeds, changes nothing and removes nothing; moreover
clean removes only object files in the build directory and archive files in
the root, and never a declared source file, wherever it lives. -/
theorem claim_C7 (env : Env) (sd bd : String) (fs : List String)
    (hok : ∀ p, env.unlinkOk p = true) :
    (clean_build env sd bd fs).1 = true ∧
    (clean_build env sd bd (clean_build env sd bd fs).2.1).1 = true ∧
    (clean_build env sd bd (clean_build env sd bd fs).2.1).2.1 =
      (clean_build env sd bd fs).2.1 ∧
    (clean_build env sd bd (clean_build env sd bd fs).2.1).2.2 = [] ∧
    (∀ p, Event.remove p ∈ (clean_build env sd bd fs).2.2 →
      isObjIn bd p = true ∨ isArchiveIn sd p = true) ∧
    (∀ s ∈ CORE_SOURCES ++ STD_SOURCES, ∀ d,
      Event.remove (pathJoin d s) ∉ (clean_build env sd bd fs).2.2) := by
  have h1 := @clean_build_ok env sd bd hok fs
  have hobj : ∀ p ∈ (clean_build env sd bd fs).2.1, isObjIn bd p = false := by
    rw [h1]
    intro p hp
    have := List.of_mem_filter (List.mem_of_mem_filter hp)
    simpa using this
  have harch : ∀ p ∈ (clean_build env sd bd fs).2.1, isArchiveIn sd p = false := by
    rw [h1]
    intro p hp
    have := List.of_mem_filter hp
    simpa using this
  have h2 := @clean_build_ok env sd bd hok (clean_build env sd bd fs).2.1
  have hfo : (clean_build env sd bd fs).2.1.filter (fun p => isObjIn bd p) = [] :=
    List.filter_eq_nil_iff.mpr (fun p hp => by simp [hobj p hp])
  have hfo2 : (clean_build env sd bd fs).2.1.filter (fun p => !(isObjIn bd p)) =
      (clean_build env sd bd fs).2.1 :=
    List.filter_eq_self.mpr (fun p hp => by simp [hobj p hp])
  have hfa : (clean_build env sd bd fs).2.1.filter (fun p => isArchiveIn sd p) = [] :=
    List.filter_eq_nil_iff.mpr (fun p hp => by simp [harch p hp])
  have hfa2 : (clean_build env sd bd fs).2.1.filter (fun p => !(isArchiveIn sd p)) =
      (clean_build env sd bd fs).2.1 :=
    List.filter_eq_self.mpr (fun p hp => by simp [harch p hp])
  rw [hfo2, hfa2, hfo] at h2
  rw [hfa] at h2
  refine ⟨by rw [h1], by rw [h2], by rw [h2], by rw [h2]; simp, ?_, ?_⟩
  · intro p hp
    rw [h1] at hp
    rcases List.mem_append.mp hp with h | h
    · obtain ⟨q, hq, hqe⟩ := List.mem_map.mp h
      injection hqe with hqe
      subst hqe
      exact Or.inl (List.of_mem_filter hq)
    · obtain ⟨q, hq, hqe⟩ := List.mem_map.mp h
      injection hqe with hqe
      subst hqe
      exact Or.inr (List.of_mem_filter hq)
  · intro s hs d hmem
    obtain ⟨hne, hm, _, _⟩ := declared_last_chars s hs
    have hlast : lastC (pathJoin d s).data = some 'm' := by
      rw [lastC_pathJoin hne, hm]
    rw [h1] at hmem
    rcases List.mem_append.mp hmem with h | h
    · obtain ⟨q, hq, hqe⟩ := List.mem_map.mp h
      injection hqe with hqe
      subst hqe
      have := globMatch_lastC (List.of_mem_filter hq) (by decide)
      rw [hlast] at this
      simp [lastC] at this
    · obtain ⟨q, hq, hqe⟩ := List.mem_map.mp h
      injection hqe with hqe
      subst hqe
      have := globMatch_lastC (List.of_mem_filter hq) (by decide)
      rw [hlast] at this
      simp [lastC] at this

/-- Witness for C7 on a concrete file set holding an object, an archive and
a source. -/
theorem claim_C7_witness :
    (clean_build envAllOk "S" "S/build" ["S/build/a.o", "S/x.a", "S/core/core.asm"]).1
      = true ∧
    (clean_build envAllOk "S" "S/build"
      (clean_build envAllOk "S" "S/build"
        ["S/build/a.o", "S/x.a", "S/core/core.asm"]).2.1).2.2 = [] ∧
    Event.remove (pathJoin "S" "core/core.asm") ∉
      (clean_build envAllOk "S" "S/build"
        ["S/build/a.o", "S/x.a", "S/core/core.asm"]).2.2 := by
  have h := claim_C7 envAllOk "S" "S/build"
    ["S/build/a.o", "S/x.a", "S/core/core.asm"] (fun _ => rfl)
  exact ⟨h.1, h.2.2.2.1, h.2.2.2.2.2 "core/core.asm" (by decide) "S"⟩

/-- C8 counterexample: on a host where unlink fails, a requested clean
aborts the whole run with an uncaught exception; the Build step is never
reached, refuting the claim that cleanup failures are non-fatal. -/
theorem claim_C8_counterexample :
    (clean_build envNoUnlink "S" (pathJoin "S" "build") ["S/build/x.o"]).1 = false ∧
    (main envNoUnlink true "S" ["S/build/x.o"]).crashed = true ∧
    (main envNoUnlink true "S" ["S/build/x.o"]).exit = 1 ∧
    Event.buildStart "libcore" ∉ (main envNoUnlink true "S" ["S/build/x.o"]).trace := by
  decide

/-- C8 (amended): a file-removal error during a requested clean is fatal:
clean_build wraps no handler around unlink, so the run terminates with an
uncaught exception (process exit 1) and the Build step is never reached. -/
theorem claim_C8 (env : Env) (sd : String) (fs : List String)
    (hdep : (check_dependencies env).1 = true)
    (hfail : (clean_build env sd (pathJoin sd "build") fs).1 = false) :
    (main env true sd fs).crashed = true ∧
    (main env true sd fs).exit = 1 ∧
    ∀ n, Event.buildStart n ∉ (main env true sd fs).trace := by
  have hmain : main env true sd fs =
      ⟨1, true, (clean_build env sd (pathJoin sd "build") fs).2.1,
       (check_dependencies env).2 ++ (clean_build env sd (pathJoin sd "build") fs).2.2⟩ := by
    simp [main, hdep, hfail]
  refine ⟨by rw [hmain], by rw [hmain], ?_⟩
  intro n hmem
  rw [hmain] at hmem
  rcases List.mem_append.mp hmem with h | h
  · obtain ⟨m, hm⟩ := checkDeps_events _ h
    exact Event.noConfusion hm
  · obtain ⟨p, hp⟩ := clean_build_events _ h
    exact Event.noConfusion hp

/-- Witness for C8 on the concrete failing host. -/
theorem claim_C8_witness :
    (main envNoUnlink true "S" ["S/build/x.o"]).exit = 1 ∧
    Event.buildStart "libstd" ∉ (main envNoUnlink true "S" ["S/build/x.o"]).trace := by
  have h := claim_C8 envNoUnlink "S" ["S/build/x.o"] (by decide) (by decide)
  exact ⟨h.2.1, h.2.2 "libstd"⟩

example : objName "core/core.asm" = "core_core.o" := by decide
example : objName "memory/gc.asm" = "memory_gc.o" := by decide
example : pathJoin "S" "core/core.asm" = "S/core/core.asm" := by decide
example : isObjIn "S/build" "S/build/x.o" = true := by decide
example : isObjIn "S/build" "S/build/sub/x.o" = false := by decide
example : isArchiveIn "S" "S/libcore.a" = true := by decide
example : isArchiveIn "S" "S/core/core.asm" = false := by decide

end ManVBuild
